import Mathlib

/-!
Shallow embedding of the ParaSail language-server core (`src/unnamed/part_000`,
the server module of SWENG480/parasail-ls).  The embedding covers:

* `uriToFilePath` (from `src/utils.ts`);
* `parseDiagnostics` (lines 151-168), including the JavaScript regular
  expression `^(.+):(\d+):(\d+): (Error|Warning): (.*)$` with the `gm` flags
  (greedy first group, per-line matching);
* the validation path `validateDocument` (lines 108-149), the close handler
  `documents.onDidClose` (lines 94-99) and the validation child's `exit`
  handler, modelled as an explicit state machine `VState` with steps
  `stepValidate`, `closeDoc`, `stepExit`;
* the interactive path `spawnInteractive` (175-191) and `queryDSL` (193-202)
  together with the `onHover`/`onDefinition` call sites, modelled as a state
  machine `IState` driven by events `IEvent` (query request, stdout line,
  process exit).  The crucial JavaScript facts modelled: every `queryDSL`
  call attaches a fresh `readline` interface to the same `stdout`, so every
  line event is delivered to every currently attached handler; a handler
  detaches itself after its first line; process exit resolves nothing.
* the hover response handling (`JSON.parse` plus the markdown assembly of
  `onHover` lines 212-217), with a fuel-indexed model of `JSON.parse`
  restricted to strings and objects (the shapes the wire protocol produces).

External platform builtins (`path.resolve`, `path.basename`, `Date.now`,
`JSON.parse`, JavaScript `Map`) are modelled as explicitly as the claims
need: `path.resolve` is kept as an opaque-to-the-theorem function parameter
`resolve`, `Map` as an association list with first-match lookup.
-/

/-- JavaScript `Map` lookup (`Map.get`): first entry with the given key. -/
def mapGet {κ α : Type} [DecidableEq κ] (m : List (κ × α)) (k : κ) : Option α :=
  match m with
  | [] => none
  | (k', v) :: t => if k' = k then some v else mapGet t k

/-- JavaScript `Map.set`: replace the entry in place or append at the end. -/
def mapSet {κ α : Type} [DecidableEq κ] (m : List (κ × α)) (k : κ) (v : α) :
    List (κ × α) :=
  match m with
  | [] => [(k, v)]
  | (k', v') :: t => if k' = k then (k, v) :: t else (k', v') :: mapSet t k v

/-- JavaScript `Map.delete`: remove the (first, hence under the Map key
uniqueness invariant the only) entry with the given key. -/
def mapDelete {κ α : Type} [DecidableEq κ] (m : List (κ × α)) (k : κ) :
    List (κ × α) :=
  match m with
  | [] => []
  | (k', v') :: t => if k' = k then t else (k', v') :: mapDelete t k

/-- Boolean list membership, used for the set of live process ids. -/
def memB (l : List Nat) (x : Nat) : Bool :=
  match l with
  | [] => false
  | y :: t => if y = x then true else memB t x

/-- Boolean list-prefix test, used to model `String.startsWith`. -/
def listPrefix : List Char → List Char → Bool
  | [], _ => true
  | _ :: _, [] => false
  | a :: as, b :: bs => if a = b then listPrefix as bs else false

/-- `uriToFilePath` from `src/utils.ts`: `docUri.replace("file://", "")` guarded
by `startsWith`; since the occurrence replaced is the prefix, this is a prefix
drop of the 7 characters of `file://`. -/
def uriToFilePath (docUri : String) : Option String :=
  if listPrefix (("file://").toList) docUri.toList then
    some (String.mk (docUri.toList.drop 7))
  else none

/-- Model of Node's `path.basename`: the component after the last slash. -/
def basename (p : String) : String :=
  String.mk ((p.toList.reverse.takeWhile (fun c => c != '/')).reverse)

/-- `DiagnosticSeverity` of the LSP library, restricted to the two values the
server produces. -/
inductive DiagnosticSeverity where
  | Error
  | Warning
deriving DecidableEq

/-- An LSP position as built by `parseDiagnostics`; the fields come from
`+m[2] - 1` style JavaScript arithmetic, hence integers. -/
structure LspPos where
  line : Int
  character : Int
deriving DecidableEq

/-- An LSP range; the source object literal's `end` field is called `endPos`
here because `end` is a Lean keyword. -/
structure LspRange where
  start : LspPos
  endPos : LspPos
deriving DecidableEq

/-- A diagnostic record as pushed by the server (severity, range, message,
constant source tag `ParaSail`). -/
structure Diagnostic where
  severity : DiagnosticSeverity
  range : LspRange
  message : String
  source : String
deriving DecidableEq

/-- Split a text into the lines the multiline regex anchors `^`/`$` see:
both `\n` and `\r` are ECMAScript line terminators. -/
def splitLinesAux : List Char → List Char → List String
  | [], acc => [String.mk acc.reverse]
  | c :: rest, acc =>
    if c = '\n' ∨ c = '\r' then String.mk acc.reverse :: splitLinesAux rest []
    else splitLinesAux rest (c :: acc)

/-- The lines of the captured output, as scanned by the `gm` regex. -/
def splitLines (s : String) : List String :=
  splitLinesAux s.toList []

/-- Whitespace trimmed by JavaScript `String.prototype.trim` (restricted to
the ASCII whitespace the analysis output can contain). -/
def isWsChar (c : Char) : Bool :=
  c == ' ' || c == '\t' || c == '\n' || c == '\r'

/-- Model of `String.prototype.trim`: strip whitespace from both ends. -/
def jsTrim (s : String) : String :=
  String.mk (((s.toList.dropWhile isWsChar).reverse.dropWhile isWsChar).reverse)

/-- Value of a decimal digit string under JavaScript unary `+` coercion. -/
def natOfDigits (ds : List Char) : Nat :=
  ds.foldl (fun acc c => 10 * acc + (c.toNat - 48)) 0

/-- One successful match of `^(.+):(\d+):(\d+): (Error|Warning): (.*)$`:
the five capture groups (`sev` keeps the literal matched word, exactly as
`m[4]` does in the source). -/
structure LineMatch where
  file : String
  lineNo : Nat
  colNo : Nat
  sev : String
  msg : String
deriving DecidableEq

/-- Try to match the regex tail `:(\d+):(\d+): (Error|Warning): (.*)$` against
a suffix of the line.  Within a fixed split point the regex is deterministic:
each `\d+` is greedy and followed by a non-digit, and the alternation branches
start with distinct letters. -/
def parseSuffix (cs : List Char) : Option (Nat × Nat × String × String) :=
  match cs with
  | ':' :: r0 =>
    let ds1 := r0.takeWhile Char.isDigit
    let r1 := r0.dropWhile Char.isDigit
    if ds1 = [] then none else
    match r1 with
    | ':' :: r2 =>
      let ds2 := r2.takeWhile Char.isDigit
      let r3 := r2.dropWhile Char.isDigit
      if ds2 = [] then none else
      match r3 with
      | ':' :: ' ' :: r4 =>
        if r4.take 7 = ("Error: ").toList then
          some (natOfDigits ds1, natOfDigits ds2, "Error",
            String.mk (r4.drop 7))
        else if r4.take 9 = ("Warning: ").toList then
          some (natOfDigits ds1, natOfDigits ds2, "Warning",
            String.mk (r4.drop 9))
        else none
      | _ => none
    | _ => none
  | _ => none

/-- Match one line against `^(.+):(\d+):(\d+): (Error|Warning): (.*)$`.
The first group `(.+)` is greedy, so the JavaScript engine commits to the
largest split point whose tail matches; `findSome?` over the split points in
decreasing order reproduces that. -/
def matchLine (ln : String) : Option LineMatch :=
  let cs := ln.toList
  (List.range cs.length).reverse.findSome? (fun i =>
    if i = 0 then none
    else
      match parseSuffix (cs.drop i) with
      | some (l, c, sv, msg) => some ⟨String.mk (cs.take i), l, c, sv, msg⟩
      | none => none)

/-- The diagnostic object literal pushed by `parseDiagnostics` (lines 157-165):
severity `Error` iff `m[4] === 'Error'`, zero-based range of width one,
trimmed message, source `ParaSail`. -/
def mkDiag (m : LineMatch) : Diagnostic :=
  { severity :=
      if m.sev = "Error" then DiagnosticSeverity.Error
      else DiagnosticSeverity.Warning
    range :=
      { start := { line := (m.lineNo : Int) - 1, character := (m.colNo : Int) - 1 }
        endPos := { line := (m.lineNo : Int) - 1, character := (m.colNo : Int) } }
    message := jsTrim m.msg
    source := "ParaSail" }

/-- The `while ((m = rx.exec(o)))` loop of `parseDiagnostics`: lines whose
resolved file differs from the resolved target are skipped (`continue`),
matches are pushed in scan order. -/
def parseDiagnosticsLoop (resolve : String → String) (target : String) :
    List String → List Diagnostic
  | [] => []
  | ln :: rest =>
    match matchLine ln with
    | none => parseDiagnosticsLoop resolve target rest
    | some m =>
      if resolve m.file ≠ resolve target then
        parseDiagnosticsLoop resolve target rest
      else mkDiag m :: parseDiagnosticsLoop resolve target rest

/-- `parseDiagnostics(target, o)` from lines 151-168, parameterised by the
`path.resolve` function it calls on both sides of the comparison. -/
def parseDiagnostics (resolve : String → String) (target o : String) :
    List Diagnostic :=
  parseDiagnosticsLoop resolve target (splitLines o)

/-- Record builder written from the claim's words, for the refinement
comparison: a matched line yields one diagnostic with zero-based range start
(line-1, col-1) and end (line-1, col), severity Error iff the severity field
is the word Error (otherwise Warning), and the trimmed message. -/
def specRecord (m : LineMatch) : Diagnostic :=
  { severity :=
      if m.sev = "Error" then DiagnosticSeverity.Error
      else DiagnosticSeverity.Warning
    range :=
      { start := { line := (m.lineNo : Int) - 1, character := (m.colNo : Int) - 1 }
        endPos := { line := (m.lineNo : Int) - 1, character := (m.colNo : Int) } }
    message := jsTrim m.msg
    source := "ParaSail" }

/-- State of the validation side of the server (part_000 sections 4-5):
the two module-level process maps, the debounce map `lastRun`, the set of
OS-level live child processes, the registered validation `exit` closures
(each closure captured `uri`, `file` and the output accumulator of its own
child), the `sendDiagnostics` pushes emitted so far, and the stdin streams
`end()`-ed by the close handler.  Process identities are numbered by a
fresh-pid counter. -/
structure VState where
  dslProcesses : List (String × Nat)
  interactiveDsl : List (String × Nat)
  lastRun : List (String × Int)
  alive : List Nat
  nextPid : Nat
  exitClosures : List (Nat × (String × String))
  sent : List (String × List Diagnostic)
  stdinEnds : List Nat
deriving DecidableEq

/-- The module-level initial state: all maps empty, no child spawned. -/
def initV : VState := ⟨[], [], [], [], 0, [], [], []⟩

/-- `validateDocument(doc)` at time `now` (`Date.now()`): bail out if the URI
is not a file URI; bail out if the last admitted run is younger than 300 ms
(`(lastRun.get(uri) ?? 0) > now - 300`); otherwise record the admission time,
spawn a child, overwrite the `dslProcesses` entry (the previous child, if
any, is neither killed nor awaited), and register the child's `exit`
closure. -/
def stepValidate (s : VState) (uri : String) (now : Int) : VState :=
  match uriToFilePath uri with
  | none => s
  | some file =>
    if (mapGet s.lastRun uri).getD 0 > now - 300 then s
    else
      { s with
        lastRun := mapSet s.lastRun uri now
        dslProcesses := mapSet s.dslProcesses uri s.nextPid
        alive := s.nextPid :: s.alive
        nextPid := s.nextPid + 1
        exitClosures := (s.nextPid, (uri, file)) :: s.exitClosures }

/-- Helper for the close handler: `m.get(uri)?.stdin?.end()` ends the stdin
of the mapped process when the entry exists. -/
def optEnd : Option Nat → List Nat
  | some pid => [pid]
  | none => []

/-- `documents.onDidClose` (lines 94-99): end the stdin of, and drop the map
entries for, both the validation and the interactive child of the document.
Nothing is killed, no exit handler is deregistered, and `lastRun` is not
touched. -/
def closeDoc (s : VState) (uri : String) : VState :=
  { s with
    stdinEnds := s.stdinEnds ++ optEnd (mapGet s.dslProcesses uri)
      ++ optEnd (mapGet s.interactiveDsl uri)
    dslProcesses := mapDelete s.dslProcesses uri
    interactiveDsl := mapDelete s.interactiveDsl uri }

/-- OS event: the validation child `pid` exits with accumulated combined
output `out`.  Its registered closure (lines 144-148) runs unconditionally:
parse the output against the captured `file`, push the diagnostics for the
captured `uri`, and delete whatever entry currently sits at
`dslProcesses[uri]`. -/
def stepExit (resolve : String → String) (s : VState) (pid : Nat)
    (out : String) : VState :=
  if memB s.alive pid then
    match mapGet s.exitClosures pid with
    | some (uri, file) =>
      { s with
        alive := s.alive.filter (fun p => p != pid)
        exitClosures := mapDelete s.exitClosures pid
        sent := s.sent ++ [(uri, parseDiagnostics resolve file out)]
        dslProcesses := mapDelete s.dslProcesses uri }
    | none => { s with alive := s.alive.filter (fun p => p != pid) }
  else s

/-- The query line built by `onHover` (line 211): note the `hover ` prefix in
front of the colon-delimited triple, and the 0-based to 1-based shift. -/
def hoverQuery (file : String) (line0 char0 : Nat) : String :=
  "hover " ++ basename file ++ ":" ++ toString (line0 + 1) ++ ":"
    ++ toString (char0 + 1)

/-- The query line built by `onDefinition` (line 227), with its `def ` prefix. -/
def defQuery (file : String) (line0 char0 : Nat) : String :=
  "def " ++ basename file ++ ":" ++ toString (line0 + 1) ++ ":"
    ++ toString (char0 + 1)

/-- Events driving the interactive model: a hover/definition request reaching
`spawnInteractive` + `queryDSL` with the already-encoded query `q`; a line
appearing on the stdout of live process `pid`; the exit of process `pid`. -/
inductive IEvent where
  | reqQuery (uri q : String)
  | lineArr (pid : Nat) (l : String)
  | exitP (pid : Nat)
deriving DecidableEq

/-- State of the interactive side (part_000 section 6).  `pendingH` is the
list of currently attached per-query `readline` line handlers in attachment
order, each recorded as (query id, pid of the process whose stdout it reads);
`results` records resolved queries as (query id, response line); `rejections`
records promises rejected by the `no interactive process` guard; `written`
records every string written to a child's stdin. -/
structure IState where
  interactiveDsl : List (String × Nat)
  alive : List Nat
  nextPid : Nat
  pendingH : List (Nat × Nat)
  results : List (Nat × String)
  rejections : List (Nat × String)
  written : List (Nat × String)
  exitClos : List (Nat × String)
  nextQid : Nat
deriving DecidableEq

/-- Initial interactive state. -/
def initI : IState := ⟨[], [], 0, [], [], [], [], [], 0⟩

/-- One step of the interactive model.

`reqQuery`: `spawnInteractive` returns the mapped child if one exists and
otherwise spawns a fresh one (registering `child.on('exit', () =>
interactiveDsl.delete(uri))`); then `queryDSL` rejects when the map has no
entry, and otherwise attaches a fresh `readline` handler to the child's
stdout and writes `q + '\n'` to its stdin.

`lineArr`: a line on the stdout of a live process is delivered to every
`readline` interface currently attached to that stream, so every pending
handler for that pid resolves with this line and detaches.

`exitP`: the process leaves the live set and its registered exit closure
deletes the map entry for its captured uri; no pending handler is resolved
or rejected. -/
def istep (s : IState) (e : IEvent) : IState :=
  match e with
  | .reqQuery uri q =>
    let s1 :=
      match mapGet s.interactiveDsl uri with
      | some _ => s
      | none =>
        { s with
          interactiveDsl := mapSet s.interactiveDsl uri s.nextPid
          alive := s.nextPid :: s.alive
          exitClos := (s.nextPid, uri) :: s.exitClos
          nextPid := s.nextPid + 1 }
    match mapGet s1.interactiveDsl uri with
    | none =>
      { s1 with
        rejections := s1.rejections ++ [(s1.nextQid, "no interactive process")]
        nextQid := s1.nextQid + 1 }
    | some pid =>
      { s1 with
        pendingH := s1.pendingH ++ [(s1.nextQid, pid)]
        written := s1.written ++ [(pid, q ++ "\n")]
        nextQid := s1.nextQid + 1 }
  | .lineArr pid l =>
    if memB s.alive pid then
      { s with
        results := s.results
          ++ (s.pendingH.filter (fun h => h.2 = pid)).map (fun h => (h.1, l))
        pendingH := s.pendingH.filter (fun h => h.2 ≠ pid) }
    else s
  | .exitP pid =>
    if memB s.alive pid then
      { s with
        alive := s.alive.filter (fun p => p != pid)
        interactiveDsl :=
          match mapGet s.exitClos pid with
          | some uri => mapDelete s.interactiveDsl uri
          | none => s.interactiveDsl
        exitClos := mapDelete s.exitClos pid }
    else s

/-- Run the interactive model over a list of events. -/
def irun (s : IState) (es : List IEvent) : IState :=
  es.foldl istep s

/-- JSON values in the shapes the interactive wire protocol produces
(strings and objects); anything else makes the parse model fail, which the
hover handler treats like a `JSON.parse` throw. -/
inductive Json where
  | str (s : String)
  | obj (fields : List (String × Json))

/-- ECMAScript whitespace accepted between JSON tokens. -/
def jskipWs (cs : List Char) : List Char :=
  cs.dropWhile (fun c => c == ' ' || c == '\t' || c == '\n' || c == '\r')

/-- Characters of a JSON string body after the opening quote, handling the
single-character escapes; returns the decoded string and the rest after the
closing quote. -/
def jstrChars (fuel : Nat) (cs : List Char) (acc : List Char) :
    Option (String × List Char) :=
  match fuel with
  | 0 => none
  | f + 1 =>
    match cs with
    | [] => none
    | c :: rest =>
      if c = '"' then some (String.mk acc.reverse, rest)
      else if c = '\\' then
        match rest with
        | [] => none
        | e :: rest2 =>
          let dec : Option Char :=
            if e = 'n' then some '\n'
            else if e = 't' then some '\t'
            else if e = 'r' then some '\r'
            else if e = '"' then some '"'
            else if e = '\\' then some '\\'
            else if e = '/' then some '/'
            else none
          match dec with
          | some d => jstrChars f rest2 (d :: acc)
          | none => none
      else jstrChars f rest (c :: acc)

/-- Fuel-indexed model of `JSON.parse` on the string/object fragment.
`mode = none` parses one value; `mode = some acc` parses the remainder of an
object body whose already-seen fields are `acc` (reversed). -/
def jparseCore (fuel : Nat) (mode : Option (List (String × Json)))
    (cs : List Char) : Option (Json × List Char) :=
  match fuel with
  | 0 => none
  | f + 1 =>
    match mode with
    | none =>
      match jskipWs cs with
      | '"' :: rest =>
        match jstrChars (rest.length + 1) rest [] with
        | some (s, r) => some (Json.str s, r)
        | none => none
      | '\x7b' :: rest => jparseCore f (some []) rest
      | _ => none
    | some acc =>
      match jskipWs cs with
      | '\x7d' :: rest => some (Json.obj acc.reverse, rest)
      | '"' :: rest =>
        match jstrChars (rest.length + 1) rest [] with
        | some (k, r1) =>
          match jskipWs r1 with
          | ':' :: r2 =>
            match jparseCore f none r2 with
            | some (v, r3) =>
              match jskipWs r3 with
              | ',' :: r4 => jparseCore f (some ((k, v) :: acc)) r4
              | '\x7d' :: r4 => some (Json.obj ((k, v) :: acc).reverse, r4)
              | _ => none
            | none => none
          | _ => none
        | none => none
      | _ => none

/-- `JSON.parse(ans)` on a full line: model parse plus the requirement that
nothing but whitespace follows; failure models the exception the hover
handler catches. -/
def jsonParse (s : String) : Option Json :=
  let cs := s.toList
  match jparseCore (2 * cs.length + 4) none cs with
  | some (v, rest) => if jskipWs rest = [] then some v else none
  | none => none

/-- JavaScript property access `o.k` on a parsed JSON value: `undefined`
(here `none`) unless `o` is an object with that field.  `JSON.parse` keeps
the last of duplicate keys; the wire protocol never produces duplicates, so
first-match lookup coincides. -/
def jget (o : Json) (k : String) : Option Json :=
  match o with
  | Json.obj fs => mapGet fs k
  | Json.str _ => none

/-- JavaScript truthiness of a possibly-undefined JSON value, as used by the
`if (obj.error)` / `if (obj.type?.name)` guards: `undefined` and the empty
string are falsy, everything else here is truthy. -/
def jsTruthy : Option Json → Bool
  | some (Json.str s) => s != ""
  | some (Json.obj _) => true
  | none => false

/-- Template-literal coercion of a possibly-undefined JSON value, as used in
the markdown interpolations. -/
def jdisplay : Option Json → String
  | some (Json.str s) => s
  | some (Json.obj _) => "[object Object]"
  | none => "undefined"

/-- The hover payload `{ contents: { kind: 'markdown', value: md } }`,
reduced to its `contents` object. -/
structure HoverReply where
  kind : String
  value : String
deriving DecidableEq

/-- Model of `obj.type?.name` as read by `onHover` (line 215). -/
def objTypeName (ans : String) : Option String :=
  match jsonParse ans with
  | some o =>
    match jget o ("type") with
    | some t =>
      match jget t ("name") with
      | some (Json.str n) => some n
      | some (Json.obj _) => none
      | none => none
    | none => none
  | none => none

/-- The response handling of `onHover` (lines 212-217): parse the answer
line (a parse failure is caught and yields `null`), short-circuit on a
truthy `error` field, then assemble the markdown from `kind`, `type?.name`
and `call?.name`. -/
def hoverFromAnswer (ans : String) : Option HoverReply :=
  match jsonParse ans with
  | none => none
  | some obj =>
    if jsTruthy (jget obj ("error")) then
      some ⟨"markdown", "**Error**: " ++ jdisplay (jget obj ("error"))⟩
    else
      let md0 := "**Kind**: `" ++ jdisplay (jget obj ("kind")) ++ "`"
      let tname :=
        match jget obj ("type") with
        | some t => jget t ("name")
        | none => none
      let md1 :=
        if jsTruthy tname then md0 ++ "\n**Type**: `" ++ jdisplay tname ++ "`"
        else md0
      let cname :=
        match jget obj ("call") with
        | some c => jget c ("name")
        | none => none
      let md2 :=
        if jsTruthy cname then md1 ++ "\n**Call**: `" ++ jdisplay cname ++ "`"
        else md1
      some ⟨"markdown", md2⟩

/-- The document URI used by the concrete scenarios. -/
def uA : String := "file:///a.psl"

/-- The response line of the round-trip claim, written with `\x7b`/`\x7d`
for the braces. -/
def c8Line : String :=
  "\x7b\"kind\":\"#object\",\"type\":\x7b\"name\":\"Foo::Bar\",\"src\":\"foo.psl:2:3\"\x7d\x7d"

/-- Invariant of the interactive model after query 0's process (pid 0) has
exited with the query unresolved: query 0 has no result, pid 0 is not live,
both counters have moved past 0, and any pending handler for query 0 reads
pid 0's stdout.  Preserved by every event, so query 0 stays unresolved
forever. -/
def qidDead (s : IState) : Prop :=
  mapGet s.results 0 = none ∧ memB s.alive 0 = false ∧ 1 ≤ s.nextPid ∧
    1 ≤ s.nextQid ∧ ∀ h ∈ s.pendingH, h.1 = 0 → h.2 = 0

theorem mapGet_mapSet_self {κ α : Type} [DecidableEq κ]
    (m : List (κ × α)) (k : κ) (v : α) : mapGet (mapSet m k v) k = some v := by
  induction m with
  | nil => simp [mapSet, mapGet]
  | cons p t ih =>
    obtain ⟨k', v'⟩ := p
    by_cases hk : k' = k
    · simp [mapSet, mapGet, hk]
    · simp [mapSet, mapGet, hk, ih]

theorem mapDelete_of_get_none {κ α : Type} [DecidableEq κ]
    {m : List (κ × α)} {k : κ} (h : mapGet m k = none) : mapDelete m k = m := by
  induction m with
  | nil => rfl
  | cons p t ih =>
    obtain ⟨k', v'⟩ := p
    by_cases hk : k' = k
    · simp [mapGet, hk] at h
    · simp only [mapGet, if_neg hk] at h
      simp [mapDelete, hk, ih h]

theorem mapGet_append_none {κ α : Type} [DecidableEq κ]
    {l1 l2 : List (κ × α)} {k : κ} (h1 : mapGet l1 k = none)
    (h2 : ∀ p ∈ l2, p.1 ≠ k) : mapGet (l1 ++ l2) k = none := by
  induction l1 with
  | nil =>
    simp only [List.nil_append]
    induction l2 with
    | nil => rfl
    | cons p t ih =>
      obtain ⟨k', v'⟩ := p
      have hne : k' ≠ k := h2 (k', v') (by simp)
      simp only [mapGet, if_neg hne]
      exact ih (fun q hq => h2 q (by simp [hq]))
  | cons p t ih =>
    obtain ⟨k', v'⟩ := p
    by_cases hk : k' = k
    · simp [mapGet, hk] at h1
    · simp only [mapGet, if_neg hk] at h1 ⊢
      exact ih h1

theorem memB_eq_false_iff (l : List Nat) (x : Nat) :
    memB l x = false ↔ ∀ y ∈ l, y ≠ x := by
  induction l with
  | nil => simp [memB]
  | cons a t ih =>
    by_cases ha : a = x
    · simp [memB, ha]
    · simp [memB, ha, ih]

theorem memB_filter_false {l : List Nat} {x : Nat} (p : Nat → Bool)
    (h : memB l x = false) : memB (l.filter p) x = false := by
  rw [memB_eq_false_iff] at h ⊢
  intro y hy
  exact h y (List.mem_filter.1 hy).1

theorem stepValidate_admitted {s : VState} {u f : String} {now : Int}
    (hf : uriToFilePath u = some f)
    (hg : ¬ ((mapGet s.lastRun u).getD 0 > now - 300)) :
    stepValidate s u now =
      { s with
        lastRun := mapSet s.lastRun u now
        dslProcesses := mapSet s.dslProcesses u s.nextPid
        alive := s.nextPid :: s.alive
        nextPid := s.nextPid + 1
        exitClosures := (s.nextPid, (u, f)) :: s.exitClosures } := by
  simp only [stepValidate, hf]
  rw [if_neg hg]

theorem stepValidate_skipped {s : VState} {u f : String} {now : Int}
    (hf : uriToFilePath u = some f)
    (hg : (mapGet s.lastRun u).getD 0 > now - 300) :
    stepValidate s u now = s := by
  simp only [stepValidate, hf]
  rw [if_pos hg]

theorem parseDiagnosticsLoop_eq (resolve : String → String) (target : String)
    (ls : List String) :
    parseDiagnosticsLoop resolve target ls = ls.filterMap (fun ln =>
      match matchLine ln with
      | some m =>
        if resolve m.file = resolve target then some (specRecord m) else none
      | none => none) := by
  induction ls with
  | nil => rfl
  | cons ln rest ih =>
    rw [List.filterMap_cons]
    cases h : matchLine ln with
    | none => simp only [parseDiagnosticsLoop, h, ih]
    | some m =>
      by_cases he : resolve m.file = resolve target
      · simp only [parseDiagnosticsLoop, h, if_pos he,
          if_neg (not_not_intro he), ih]
        rfl
      · simp only [parseDiagnosticsLoop, h, if_pos he, if_neg he, ih]

theorem qidDead_istep {s : IState} (e : IEvent) (hs : qidDead s) :
    qidDead (istep s e) := by
  obtain ⟨hres, hal, hnp, hnq, hpend⟩ := hs
  cases e with
  | reqQuery uri q =>
    simp only [istep]
    cases hml : mapGet s.interactiveDsl uri with
    | some pid =>
      simp only [hml]
      refine ⟨hres, hal, hnp, ?_, ?_⟩
      · show 1 ≤ s.nextQid + 1
        omega
      · show ∀ h ∈ s.pendingH ++ [(s.nextQid, pid)], h.1 = 0 → h.2 = 0
        intro h hh
        rcases List.mem_append.1 hh with h1 | h2
        · exact hpend h h1
        · simp only [List.mem_singleton] at h2
          subst h2
          intro h0
          simp only [] at h0 ⊢
          exact absurd h0 (by omega)
    | none =>
      simp only [hml, mapGet_mapSet_self]
      refine ⟨hres, ?_, ?_, ?_, ?_⟩
      · show memB (s.nextPid :: s.alive) 0 = false
        simp only [memB]
        rw [if_neg (by omega)]
        exact hal
      · show 1 ≤ s.nextPid + 1
        omega
      · show 1 ≤ s.nextQid + 1
        omega
      · show ∀ h ∈ s.pendingH ++ [(s.nextQid, s.nextPid)], h.1 = 0 → h.2 = 0
        intro h hh
        rcases List.mem_append.1 hh with h1 | h2
        · exact hpend h h1
        · simp only [List.mem_singleton] at h2
          subst h2
          intro h0
          simp only [] at h0 ⊢
          exact absurd h0 (by omega)
  | lineArr pid l =>
    simp only [istep]
    by_cases hmem : memB s.alive pid = true
    · rw [if_pos hmem]
      have hpid : pid ≠ 0 := by
        intro h0
        rw [h0, hal] at hmem
        exact Bool.false_ne_true hmem
      refine ⟨?_, hal, hnp, hnq, ?_⟩
      · show mapGet (s.results ++
            (s.pendingH.filter (fun h => h.2 = pid)).map (fun h => (h.1, l)))
            0 = none
        apply mapGet_append_none hres
        intro p hp
        simp only [List.mem_map] at hp
        obtain ⟨h, hh, hpe⟩ := hp
        have hm := List.mem_filter.1 hh
        have hp2 : h.2 = pid := by simpa using hm.2
        intro hk
        have h10 : h.1 = 0 := by rw [← hpe] at hk; simpa using hk
        have := hpend h hm.1 h10
        rw [this] at hp2
        exact hpid hp2.symm
      · show ∀ h ∈ s.pendingH.filter (fun h => h.2 ≠ pid), h.1 = 0 → h.2 = 0
        intro h hh
        exact hpend h (List.mem_filter.1 hh).1
    · rw [if_neg hmem]
      exact ⟨hres, hal, hnp, hnq, hpend⟩
  | exitP pid =>
    simp only [istep]
    by_cases hmem : memB s.alive pid = true
    · rw [if_pos hmem]
      refine ⟨hres, ?_, hnp, hnq, hpend⟩
      show memB (s.alive.filter (fun p => p != pid)) 0 = false
      exact memB_filter_false _ hal
    · rw [if_neg hmem]
      exact ⟨hres, hal, hnp, hnq, hpend⟩

theorem qidDead_irun {s : IState} (es : List IEvent) (hs : qidDead s) :
    qidDead (irun s es) := by
  induction es generalizing s with
  | nil => exact hs
  | cons e t ih => exact ih (qidDead_istep e hs)

/-- C1 (code_bug evidence): issuing query B before query A's response line has
been read IS observable as B receiving A's response.  In the model of
`queryDSL`, two back-to-back hover queries on the same document attach two
handlers to the same stdout; when the first response line `RespA` arrives,
BOTH pending queries resolve with `RespA`, and B's own response `RespB`
subsequently resolves nothing.  The code neither queues nor rejects the
second query, contradicting the claimed invariant. -/
theorem c1_query_crosswire :
    (irun initI [IEvent.reqQuery uA (hoverQuery ("/a.psl") 0 0),
        IEvent.reqQuery uA (hoverQuery ("/a.psl") 1 1),
        IEvent.lineArr 0 ("RespA")]).results = [(0, "RespA"), (1, "RespA")] ∧
    (irun initI [IEvent.reqQuery uA (hoverQuery ("/a.psl") 0 0),
        IEvent.reqQuery uA (hoverQuery ("/a.psl") 1 1),
        IEvent.lineArr 0 ("RespA"),
        IEvent.lineArr 0 ("RespB")]).results = [(0, "RespA"), (1, "RespA")] := by
  constructor
  · decide
  · decide

/-- C2: parsing validation output against a target file maps each line of the
form `file:line:col: (Error|Warning): message` whose file resolves to the
target's path to exactly one diagnostic with zero-based range start
(line-1, col-1) and end (line-1, col), severity Error iff the severity word
is Error, and the trimmed message; `foo.psl:10:5: Error: bad type` against
`foo.psl` yields exactly that record, and a line naming a different file
yields no record. -/
theorem c2_parse_diagnostics (resolve : String → String) (target o : String) :
    parseDiagnostics resolve target o =
      (splitLines o).filterMap (fun ln =>
        match matchLine ln with
        | some m =>
          if resolve m.file = resolve target then some (specRecord m) else none
        | none => none) ∧
    parseDiagnostics id ("foo.psl") ("foo.psl:10:5: Error: bad type") =
      [{ severity := DiagnosticSeverity.Error
         range := { start := { line := 9, character := 4 }
                    endPos := { line := 9, character := 5 } }
         message := "bad type"
         source := "ParaSail" }] ∧
    parseDiagnostics id ("foo.psl") ("bar.psl:10:5: Error: bad type") = [] :=
  ⟨parseDiagnosticsLoop_eq resolve target (splitLines o), by decide, by decide⟩

/-- C2 witness: the refinement equation of `c2_parse_diagnostics`
instantiated at the claim's concrete line. -/
theorem c2_witness :
    parseDiagnostics id ("foo.psl") ("foo.psl:10:5: Error: bad type") =
      (splitLines ("foo.psl:10:5: Error: bad type")).filterMap (fun ln =>
        match matchLine ln with
        | some m =>
          if id m.file = id ("foo.psl") then some (specRecord m) else none
        | none => none) :=
  (c2_parse_diagnostics id ("foo.psl") ("foo.psl:10:5: Error: bad type")).1

/-- C3 (code_bug evidence): an admitted validate call does NOT kill or await
the still-running prior validation child; it only overwrites the registry
entry.  After two admitted validate calls 400 ms apart, both children (pids 0
and 1) are alive for the same document, and when the stale child 0 finally
exits, its closure even deletes the registry entry of the newer child 1. -/
theorem c3_no_supersession :
    (stepValidate (stepValidate initV uA 1000) uA 1400).alive = [1, 0] ∧
    mapGet (stepValidate (stepValidate initV uA 1000) uA 1400).exitClosures 0 =
      some (uA, "/a.psl") ∧
    mapGet (stepValidate (stepValidate initV uA 1000) uA 1400).exitClosures 1 =
      some (uA, "/a.psl") ∧
    mapGet (stepValidate (stepValidate initV uA 1000) uA 1400).dslProcesses uA =
      some 1 ∧
    (stepExit id (stepValidate (stepValidate initV uA 1000) uA 1400) 0
      ("")).dslProcesses = [] := by
  refine ⟨by decide, by decide, by decide, by decide, by decide⟩

/-- C4 (code_bug evidence): if the interactive process exits while a query is
outstanding, the pending query never resolves — no event sequence whatsoever
can ever produce a result for it (nothing in `queryDSL` reacts to process
exit, and the dead process can emit no further lines) — while the respawn
half of the claim does hold: a subsequent query call spawns a fresh
interactive process (pid 1) for the document. -/
theorem c4_crash_hangs_query :
    mapGet (irun initI [IEvent.reqQuery uA ("hover a.psl:1:1"),
      IEvent.exitP 0]).results 0 = none ∧
    (irun initI [IEvent.reqQuery uA ("hover a.psl:1:1"),
      IEvent.exitP 0]).pendingH = [(0, 0)] ∧
    mapGet (irun initI [IEvent.reqQuery uA ("hover a.psl:1:1"),
      IEvent.exitP 0]).interactiveDsl uA = none ∧
    (∀ es : List IEvent,
      mapGet (irun (irun initI [IEvent.reqQuery uA ("hover a.psl:1:1"),
        IEvent.exitP 0]) es).results 0 = none) ∧
    mapGet (irun initI [IEvent.reqQuery uA ("hover a.psl:1:1"),
      IEvent.exitP 0,
      IEvent.reqQuery uA ("hover a.psl:2:2")]).interactiveDsl uA = some 1 ∧
    memB (irun initI [IEvent.reqQuery uA ("hover a.psl:1:1"),
      IEvent.exitP 0,
      IEvent.reqQuery uA ("hover a.psl:2:2")]).alive 1 = true := by
  refine ⟨by decide, by decide, by decide, ?_, by decide, by decide⟩
  intro es
  exact (qidDead_irun es
    ⟨by decide, by decide, by decide, by decide, by decide⟩).1

/-- C5: two validate calls within the fixed 300 ms debounce interval spawn at
most one validation process — an admitted call spawns exactly one child and
records the admission time, a second call within the interval is a complete
no-op (skipped, nothing recorded) — and a call at or after 300 ms from the
last admitted call spawns exactly one more child and records its admission
time. -/
theorem c5_debounce_gate (s : VState) (u f : String) (t1 t2 : Int)
    (hf : uriToFilePath u = some f)
    (h1 : (mapGet s.lastRun u).getD 0 ≤ t1 - 300) :
    (stepValidate s u t1).nextPid = s.nextPid + 1 ∧
    mapGet (stepValidate s u t1).lastRun u = some t1 ∧
    (t2 < t1 + 300 →
      stepValidate (stepValidate s u t1) u t2 = stepValidate s u t1) ∧
    (t1 + 300 ≤ t2 →
      (stepValidate (stepValidate s u t1) u t2).nextPid = s.nextPid + 2 ∧
      mapGet (stepValidate (stepValidate s u t1) u t2).lastRun u =
        some t2) := by
  have hg1 : ¬ ((mapGet s.lastRun u).getD 0 > t1 - 300) := by omega
  have e1 := stepValidate_admitted hf hg1
  have hlr : mapGet (stepValidate s u t1).lastRun u = some t1 := by
    rw [e1]
    exact mapGet_mapSet_self s.lastRun u t1
  have hnp : (stepValidate s u t1).nextPid = s.nextPid + 1 := by rw [e1]
  refine ⟨hnp, hlr, ?_, ?_⟩
  · intro hlt
    apply stepValidate_skipped hf
    rw [hlr]
    show t1 > t2 - 300
    omega
  · intro hge
    have hg2 : ¬ ((mapGet (stepValidate s u t1).lastRun u).getD 0 >
        t2 - 300) := by
      rw [hlr]
      show ¬ (t1 > t2 - 300)
      omega
    have e2 := stepValidate_admitted hf hg2
    constructor
    · rw [e2]
      show (stepValidate s u t1).nextPid + 1 = s.nextPid + 2
      omega
    · rw [e2]
      exact mapGet_mapSet_self (stepValidate s u t1).lastRun u t2

/-- C5 witness: the debounce gate at the initial state, with calls at
t=1000 and t=1200 (within the interval). -/
theorem c5_witness :
    (stepValidate initV uA 1000).nextPid = initV.nextPid + 1 ∧
    mapGet (stepValidate initV uA 1000).lastRun uA = some 1000 ∧
    ((1200 : Int) < 1000 + 300 →
      stepValidate (stepValidate initV uA 1000) uA 1200 =
        stepValidate initV uA 1000) ∧
    ((1000 : Int) + 300 ≤ 1200 →
      (stepValidate (stepValidate initV uA 1000) uA 1200).nextPid =
        initV.nextPid + 2 ∧
      mapGet (stepValidate (stepValidate initV uA 1000) uA 1200).lastRun uA =
        some 1200) :=
  c5_debounce_gate initV uA ("/a.psl") 1000 1200 (by decide) (by decide)

/-- C6 (code_bug evidence): closing a document does NOT terminate its running
validation child (the close handler only ends stdin; pid 0 stays alive), and
the child's exit handler still fires after the close, parsing the captured
output and pushing its diagnostics for the closed document. -/
theorem c6_close_still_pushes :
    (closeDoc (stepValidate initV uA 1000) uA).alive = [0] ∧
    (stepExit id (closeDoc (stepValidate initV uA 1000) uA) 0
        ("/a.psl:1:1: Error: boom")).sent =
      [(uA, [{ severity := DiagnosticSeverity.Error
               range := { start := { line := 0, character := 0 }
                          endPos := { line := 0, character := 1 } }
               message := "boom"
               source := "ParaSail" }])] := by
  constructor
  · decide
  · decide

/-- C7 (code_bug evidence): the text written to the interactive process's
stdin is NOT the bare colon-delimited triple: `onHover` writes
`hover <basename>:<line>:<col>` and `onDefinition` writes
`def <basename>:<line>:<col>` (1-based), i.e. with a word prefix the DSL
script's documented input format does not expect.  At 0-based position
(9, 10) on `/a.psl`, the wire line is `hover a.psl:10:11\n`. -/
theorem c7_query_wire_format :
    (irun initI [IEvent.reqQuery uA (hoverQuery ("/a.psl") 9 10)]).written =
      [(0, "hover a.psl:10:11\n")] ∧
    hoverQuery ("/dir/foo.psl") 9 10 = "hover foo.psl:10:11" ∧
    defQuery ("/dir/foo.psl") 9 10 = "def foo.psl:10:11" ∧
    ("hover foo.psl:10:11" : String) ≠ "foo.psl:10:11" := by
  refine ⟨by decide, by decide, by decide, by decide⟩

/-- C8: decoding the response line
`{"kind":"#object","type":{"name":"Foo::Bar","src":"foo.psl:2:3"}}` yields a
result whose type name is `Foo::Bar`, and the hover markdown assembled from
it contains that type name. -/
theorem c8_decode_roundtrip :
    objTypeName c8Line = some ("Foo::Bar") ∧
    hoverFromAnswer c8Line =
      some ⟨"markdown",
        "**Kind**: `#object`" ++ "\n**Type**: `" ++ "Foo::Bar" ++ "`"⟩ := by
  constructor
  · decide
  · decide

/-- C9: closing a document for which no validation or interactive session
exists is a no-op — the close handler raises nothing, ends no stream and
leaves the state unchanged. -/
theorem c9_close_idempotent (s : VState) (u : String)
    (h1 : mapGet s.dslProcesses u = none)
    (h2 : mapGet s.interactiveDsl u = none) :
    closeDoc s u = s := by
  simp [closeDoc, mapDelete_of_get_none h1, mapDelete_of_get_none h2,
    h1, h2, optEnd]

/-- C9 witness: closing an unknown document in the initial state. -/
theorem c9_witness :
    mapGet initV.dslProcesses uA = none ∧
    mapGet initV.interactiveDsl uA = none ∧
    closeDoc initV uA = initV :=
  ⟨by decide, by decide, c9_close_idempotent initV uA (by decide) (by decide)⟩

/-- C10: the close handler removes only the two process-map entries and
leaves the debounce entry `lastRun` untouched, so a validate call issued
within 300 ms of the last pre-close admitted run — even after the document
was closed — is still suppressed. -/
theorem c10_close_keeps_debounce :
    (∀ (s : VState) (u : String), (closeDoc s u).lastRun = s.lastRun) ∧
    (closeDoc (stepValidate initV uA 1000) uA).lastRun = [(uA, 1000)] ∧
    stepValidate (closeDoc (stepValidate initV uA 1000) uA) uA 1200 =
      closeDoc (stepValidate initV uA 1000) uA :=
  ⟨fun s u => rfl, by decide, by decide⟩
